import Mathlib

/-!
Verification of the mailtime IMAP synchronization and cache reconciliation
engine (src/workers.py and src/widgets.py), as a shallow embedding in Lean.

Python strings are modelled as Lean `String`; the string operations the
source uses (`split`, `strip`, substring `in`) are rebuilt structurally over
`List Char` so that all definitions are executable and kernel-reducible.
-/

namespace Mailtime

/-- Python `needle in hay` over char lists: some suffix of `hay` starts with
`needle`. -/
def containsSub (hay needle : List Char) : Bool :=
  needle.isPrefixOf hay ||
    match hay with
    | [] => false
    | _ :: t => containsSub t needle

/-- Python substring test `needle in hay` on strings. -/
def strContains (hay needle : String) : Bool :=
  containsSub hay.toList needle.toList

/-- Python `s.split('"')`: split a char list at every double-quote character,
separator dropped. -/
def splitOnQuote : List Char → List Char → List (List Char)
  | [], acc => [acc.reverse]
  | c :: rest, acc =>
    if c = '"' then acc.reverse :: splitOnQuote rest []
    else splitOnQuote rest (c :: acc)

/-- Python `s.split('"/"')`: split a char list at every occurrence of the
three-character separator `"/"`, separator dropped. -/
def splitOnQSQ : List Char → List Char → List (List Char)
  | c1 :: c2 :: c3 :: rest, acc =>
    if c1 = '"' ∧ c2 = '/' ∧ c3 = '"' then acc.reverse :: splitOnQSQ rest []
    else splitOnQSQ (c2 :: c3 :: rest) (c1 :: acc)
  | xs, acc => [acc.reverse ++ xs]

/-- Python `s.strip()`. -/
def trimChars (cs : List Char) : List Char :=
  ((cs.dropWhile Char.isWhitespace).reverse.dropWhile Char.isWhitespace).reverse

/-- Python `line.split('"')` returning strings. -/
def pySplitQuote (line : String) : List String :=
  (splitOnQuote line.toList []).map fun cs => String.mk cs

/-- Python `line.split('"/"')` returning strings. -/
def pySplitQSQ (line : String) : List String :=
  (splitOnQSQ line.toList []).map fun cs => String.mk cs

/-- Python `line.count('"')`. -/
def quoteCount (line : String) : Nat :=
  line.toList.count '"'

/-- MessageRecord: the normalized unit of synchronized data, as built by
`IMAPWorker._fetch_folder_emails` (src/workers.py). The `folder` key is only
present once a caller tags the record, hence `Option`. -/
structure EmailRec where
  id : String
  fromAddr : String
  subject : String
  date : String
  bodyText : String
  bodyHtml : String
  folder : Option String
deriving DecidableEq

/-- Insertion step of Python's stable `sorted(ids, reverse=True)` on ints. -/
def insertIdDesc (x : Nat) : List Nat → List Nat
  | [] => [x]
  | y :: ys => if x < y then y :: insertIdDesc x ys else x :: y :: ys

/-- Python `sorted(email_ids, reverse=True)`. -/
def sortIdsDesc (ids : List Nat) : List Nat :=
  ids.foldr insertIdDesc []

/-- src/workers.py line 293:
`email_ids = sorted(email_ids, reverse=True)[-25:]` — the IDs the fetch loop
then iterates, in order. -/
def selectProcessedIds (ids : List Nat) : List Nat :=
  let s := sortIdsDesc ids
  s.drop (s.length - 25)

/-- Modelled from the spec: "only the most recent N IDs are processed
(N = 25 ...); ordering is descending by ID" — the 25 largest IDs in
descending order. -/
def specMostRecentIds (ids : List Nat) : List Nat :=
  (sortIdsDesc ids).take 25

/-- `IMAPWorker._fetch_folder_emails` after ID discovery: on an empty ID
list return `[]`; otherwise iterate `selectProcessedIds`, fetching each ID,
skipping IDs whose fetch or parse fails (`fetch : Nat → Option EmailRec`
abstracts the server's response for one ID). -/
def fetchFolderEmails (ids : List Nat) (fetch : Nat → Option EmailRec) : List EmailRec :=
  if ids = [] then []
  else (selectProcessedIds ids).filterMap fetch

/-- Python `a < b` on strings: lexicographic comparison of code points. -/
def charListLt : List Char → List Char → Bool
  | [], [] => false
  | [], _ :: _ => true
  | _ :: _, [] => false
  | a :: as, b :: bs =>
    if a.toNat < b.toNat then true
    else if b.toNat < a.toNat then false
    else charListLt as bs

/-- Python `a < b` for strings, over their char lists. -/
def strLtB (a b : String) : Bool :=
  charListLt a.toList b.toList

/-- Insertion step of Python's stable
`sorted(emails, key=lambda x: x.get('date', ''), reverse=True)`:
`x` moves past every record with a strictly larger date and lands before the
first record whose date is `≤` its own (stability: an earlier-listed record
precedes later ones with an equal date). -/
def insertByDateDesc (x : EmailRec) : List EmailRec → List EmailRec
  | [] => [x]
  | y :: ys => if strLtB x.date y.date then y :: insertByDateDesc x ys else x :: y :: ys

/-- Python `sorted(emails, key=..., reverse=True)` by display date. -/
def sortByDateDesc (l : List EmailRec) : List EmailRec :=
  l.foldr insertByDateDesc []

/-- The exclusion set shared by `IMAPWorker._fetch_all_folders` and
`FolderWorker._fetch_folders` (src/workers.py). -/
def excludedFolders : List String :=
  ["Arquivo Morto", "Archive", "Outbox"]

/-- Name extraction for one raw listing line, shared shape of both folder
parsers: four or more quotes ⇒ fourth quote-delimited segment; else a bare
`"/"` delimiter ⇒ trailing segment, stripped; else unparsable (`none`). -/
def extractFolderName (line : String) : Option String :=
  if 4 ≤ quoteCount line then
    let parts := pySplitQuote line
    if 4 ≤ parts.length then some (parts.getD 3 "") else none
  else if 2 ≤ (pySplitQSQ line).length then
    some (String.mk (trimChars ((pySplitQSQ line).getD 1 "").toList))
  else
    none

/-- `IMAPWorker._fetch_all_folders` folder filter (src/workers.py lines
378-381): keep a parsed name iff it is nonempty, not `/`, not an excluded
name and contains no excluded name as a substring. -/
def workerFolderLineNames (line : String) : List String :=
  match extractFolderName line with
  | none => []
  | some name =>
    if name ≠ "" ∧ name ≠ "/" ∧ name ∉ excludedFolders ∧
        excludedFolders.all (fun ex => !strContains name ex) then
      [name]
    else []

/-- The `folder_names` list accumulated by `IMAPWorker._fetch_all_folders`. -/
def workerFolderNames (lines : List String) : List String :=
  lines.flatMap workerFolderLineNames

/-- `IMAPWorker._fetch_all_folders` (src/workers.py lines 351-402): parse the
listing, keep the first 5 folder names, sync each in turn (a folder whose
`SELECT`/fetch raises is skipped: `folderIds fn = none`), tag every fetched
record with its source folder, concatenate, sort by display date descending
and keep the first 50 records. -/
def fetchAllFolders (lines : List String) (folderIds : String → Option (List Nat))
    (fetch : String → Nat → Option EmailRec) : List EmailRec :=
  let names := (workerFolderNames lines).take 5
  let allEmails := names.flatMap fun fn =>
    match folderIds fn with
    | none => []
    | some ids => (fetchFolderEmails ids (fetch fn)).map fun e => { e with folder := some fn }
  (sortByDateDesc allEmails).take 50

/-- Modelled from the spec: the same "all folders" pipeline but with the
combined result capped "to 200 records before merge" as §4.3 claims, instead
of the 50 the source applies. -/
def specFetchAllFoldersCap200 (lines : List String) (folderIds : String → Option (List Nat))
    (fetch : String → Nat → Option EmailRec) : List EmailRec :=
  let names := (workerFolderNames lines).take 5
  let allEmails := names.flatMap fun fn =>
    match folderIds fn with
    | none => []
    | some ids => (fetchFolderEmails ids (fetch fn)).map fun e => { e with folder := some fn }
  (sortByDateDesc allEmails).take 200

/-- `FolderWorker._fetch_folders` parsing of one listing line (src/workers.py
lines 527-552): the quoted branch keeps a name that is nonempty and not `/`;
the unquoted branch keeps a stripped name not in `['/', '""', '']`.
Exclusion is not applied at this stage. -/
def resolverFolderLineNames (line : String) : List String :=
  if 4 ≤ quoteCount line then
    let parts := pySplitQuote line
    if 4 ≤ parts.length then
      let name := parts.getD 3 ""
      if name ≠ "" ∧ name ≠ "/" then [name] else []
    else []
  else if 2 ≤ (pySplitQSQ line).length then
    let name := String.mk (trimChars ((pySplitQSQ line).getD 1 "").toList)
    if name ≠ "/" ∧ name ≠ "\"\"" ∧ name ≠ "" then [name] else []
  else []

/-- The `folder_names` list parsed by `FolderWorker._fetch_folders`. -/
def parseFolderNames (lines : List String) : List String :=
  lines.flatMap resolverFolderLineNames

/-- The `folder_mappings` buckets of `FolderWorker._fetch_folders`, in
iteration order. -/
def folderBuckets : List (List String) :=
  [["INBOX", "Inbox"],
   ["SENT", "Sent", "Sent Items", "Sent Mail"],
   ["DRAFTS", "Drafts", "Draft"],
   ["TRASH", "Trash", "Deleted", "Deleted Items"],
   ["SPAM", "Spam", "Junk", "Junk E-mail", "Bulk Mail"],
   ["NOTES", "Notes"]]

/-- The canonical-bucket pass of `FolderWorker._fetch_folders`: for each
bucket in order, append the first parsed name that belongs to the bucket's
variations, is not excluded (exact match) and not already appended. -/
def bucketPassAux (names : List String) : List (List String) → List String → List String
  | [], acc => acc
  | vars :: rest, acc =>
    match names.find? (fun f => vars.contains f && !excludedFolders.contains f && !acc.contains f) with
    | some f => bucketPassAux names rest (acc ++ [f])
    | none => bucketPassAux names rest acc

/-- The leftover pass of `FolderWorker._fetch_folders`: append every parsed
name not yet present, not excluded exactly, and containing no exclusion
substring, in discovery order. -/
def leftoverPass (names : List String) (acc0 : List String) : List String :=
  names.foldl
    (fun acc f =>
      if !acc.contains f && !excludedFolders.contains f &&
          !(excludedFolders.any fun ex => strContains f ex) then
        acc ++ [f]
      else acc)
    acc0

/-- The resolved ordering built by `FolderWorker._fetch_folders` from parsed
folder names. -/
def sortedFolders (names : List String) : List String :=
  leftoverPass names (bucketPassAux names folderBuckets [])

/-- `FolderWorker._fetch_folders` end to end: raw listing lines to the
resolved folder ordering. -/
def fetchFolders (lines : List String) : List String :=
  sortedFolders (parseFolderNames lines)

/-- The per-account cache file written by `FileIOWorker._save_cache` with the
payload built in `MailTab._save_cached_emails` (src/widgets.py lines
695-709): account email, a fresh `last_updated` timestamp, and the complete
in-memory record list. -/
structure CacheFile where
  accountEmail : String
  lastUpdated : String
  emails : List EmailRec
deriving DecidableEq

/-- The deduplication key of `MailTab._on_emails_loaded` (src/widgets.py line
1075): `(email['id'], email.get('subject', ''), email.get('from', ''))`. -/
def dedupKey (e : EmailRec) : String × String × String :=
  (e.id, e.subject, e.fromAddr)

/-- The merge loop of `MailTab._on_emails_loaded` (src/widgets.py lines
1078-1084): walk the fetched batch, appending a record iff its dedup key is
not among `keys` (the keys of the cache plus the keys of records already
appended from this batch). -/
def mergeNew (keys : List (String × String × String)) : List EmailRec → List EmailRec
  | [] => []
  | e :: rest =>
    if dedupKey e ∈ keys then mergeNew keys rest
    else e :: mergeNew (dedupKey e :: keys) rest

/-- The folder tag applied by `MailTab._on_emails_loaded` (line 1067):
`last_sync_folder` when set and not `"ALL"`, else `"Inbox"`. -/
def syncFolderTag (lastSyncFolder : String) : String :=
  if lastSyncFolder ≠ "" ∧ lastSyncFolder ≠ "ALL" then lastSyncFolder else "Inbox"

/-- The `new_emails` list computed by `MailTab._on_emails_loaded` for a
fetched batch against the in-memory cache. -/
def onEmailsLoadedNew (lastSyncFolder : String) (cache batch : List EmailRec) : List EmailRec :=
  mergeNew (cache.map dedupKey)
    (batch.map fun e => { e with folder := some (syncFolderTag lastSyncFolder) })

/-- `MailTab._on_emails_loaded` (src/widgets.py lines 1063-1090): tag the
batch, append the records with unseen keys, and trigger a cache write (a full
rewrite carrying the complete list and a fresh timestamp) iff at least one
record was added. Returns the updated in-memory list and the file written, if
any. -/
def onEmailsLoaded (acct ts lastSyncFolder : String) (cache batch : List EmailRec) :
    List EmailRec × Option CacheFile :=
  let newE := onEmailsLoadedNew lastSyncFolder cache batch
  let updated := cache ++ newE
  (updated, if newE.isEmpty then none else some ⟨acct, ts, updated⟩)

/-- The `new_emails` list computed by `MailTab._on_all_folders_synced`
(src/widgets.py lines 924-938): sort the combined batch by date descending,
cap to 200, and keep records whose `id` is not among the cached ids
(`existing_ids` is a set of ids only). -/
def onAllFoldersSyncedNew (cache batch : List EmailRec) : List EmailRec :=
  ((sortByDateDesc batch).take 200).filter fun e => !((cache.map (·.id)).contains e.id)

/-- `MailTab._on_all_folders_synced`: append the id-unseen records and
trigger a full cache rewrite iff at least one was added. -/
def onAllFoldersSynced (acct ts : String) (cache batch : List EmailRec) :
    List EmailRec × Option CacheFile :=
  let newE := onAllFoldersSyncedNew cache batch
  let updated := cache ++ newE
  (updated, if newE.isEmpty then none else some ⟨acct, ts, updated⟩)

/-- The in-memory state of a `MailTab` touched by the deletion and
cache-clear handlers. -/
structure TabState where
  allEmails : List EmailRec
  emails : List EmailRec
  tableRows : Nat
  currentEmail : Option EmailRec
deriving DecidableEq

/-- The side effects a `MailTab` handler requests, in order: a cache-file
write (`FileIOWorker "save_cache"`), a cache-file removal
(`FileIOWorker "clear_cache"`), or a folder resync (`self.sync_folder()`). -/
inductive TabAction where
  | saveCache (file : CacheFile)
  | clearCacheFile
  | resync (folder : String)
deriving DecidableEq

/-- `MailTab._on_email_deleted_from_server` (src/widgets.py lines 583-608):
on `success`, clear `all_emails`, `emails`, the table and the preview, write
the (now empty) cache via `_save_cached_emails`, then call `sync_folder()`
once; on a non-success signal, do nothing. -/
def onEmailDeletedFromServer (success : Bool) (st : TabState)
    (acct ts currentFolder : String) : TabState × List TabAction :=
  if success then
    (⟨[], [], 0, none⟩,
     [TabAction.saveCache ⟨acct, ts, []⟩, TabAction.resync currentFolder])
  else
    (st, [])

/-- `MailTab._clear_cached_emails` (src/widgets.py lines 720-732): clear the
in-memory lists and table and start a `clear_cache` file worker, which
unlinks the cache file. -/
def clearCachedEmails (st : TabState) : TabState × List TabAction :=
  ({ st with allEmails := [], emails := [], tableRows := 0 }, [TabAction.clearCacheFile])

/-- Effect of one `TabAction` on the on-disk cache file for this account:
`FileIOWorker._save_cache` overwrites the file with the given payload;
`FileIOWorker._clear_cache` unlinks it (no-op when absent); a resync touches
no file by itself. -/
def applyTabAction (disk : Option CacheFile) : TabAction → Option CacheFile
  | TabAction.saveCache f => some f
  | TabAction.clearCacheFile => none
  | TabAction.resync _ => disk

/-- Effect of a handler's action list on the on-disk cache file. -/
def applyTabActions (disk : Option CacheFile) (acts : List TabAction) : Option CacheFile :=
  acts.foldl applyTabAction disk

/-- Number of resync calls in a handler's action list. -/
def countResyncs (acts : List TabAction) : Nat :=
  (acts.filter fun a => match a with | TabAction.resync _ => true | _ => false).length

/-- Number of cache-file removals in a handler's action list. -/
def countClearCacheFile (acts : List TabAction) : Nat :=
  (acts.filter fun a => match a with | TabAction.clearCacheFile => true | _ => false).length

/-- Outcome of one sync attempt of `IMAPWorker.run`: the coroutine returned
an email list, timed out, or raised. -/
inductive AttemptResult where
  | ok (emails : List EmailRec)
  | timedOut
  | failed (msg : String)
deriving DecidableEq

/-- Outcome of one delete attempt of `IMAPDeleteWorker.run`: `_delete_email`
returned (`found` is its boolean result), timed out, or raised. -/
inductive DelAttempt where
  | done (found : Bool)
  | timedOut
  | failed (msg : String)
deriving DecidableEq

/-- Observable events of a worker run, in order: an attempt starting with
its timeout, the 1-second pause between attempts, and the emitted Qt
signals (`connection_status`, `finished`, `error`, `deleted`). -/
inductive SyncEvent where
  | attempt (timeoutSecs : Nat)
  | sleep (secs : Nat)
  | statusSig (connected : Bool)
  | finishedSig (emails : List EmailRec)
  | errorSig (msg : String)
  | deletedSig (success : Bool) (msg : String)
deriving DecidableEq

/-- `timeout = self.base_timeout + (attempt * 5)` of `IMAPWorker.run`:
15s, 20s, 25s. -/
def syncTimeout (attempt : Nat) : Nat := 15 + attempt * 5

/-- `timeout = self.base_timeout + (attempt * 2)` of `IMAPDeleteWorker.run`:
5s, 7s, 9s. -/
def deleteTimeout (attempt : Nat) : Nat := 5 + attempt * 2

/-- Is this attempt outcome a failure (timeout or exception)? -/
def isFailureS : AttemptResult → Bool
  | AttemptResult.ok _ => false
  | _ => true

/-- The `last_error` string a failing sync attempt with timeout `t` sets. -/
def failMsgS (t : Nat) : AttemptResult → String
  | AttemptResult.timedOut => "Connection timeout after " ++ toString t ++ " seconds"
  | AttemptResult.failed m => m
  | AttemptResult.ok _ => ""

/-- Is this delete attempt outcome a failure? -/
def isFailureD : DelAttempt → Bool
  | DelAttempt.done _ => false
  | _ => true

/-- The `last_error` string a failing delete attempt with timeout `t` sets. -/
def failMsgD (t : Nat) : DelAttempt → String
  | DelAttempt.timedOut => "Delete timeout after " ++ toString t ++ " seconds"
  | DelAttempt.failed m => m
  | DelAttempt.done _ => ""

/-- The retry loop of `IMAPWorker.run` (src/workers.py lines 193-231):
`fuel` attempts remain, `attempt` is the current index, `lastErr` the last
recorded failure. Success emits `connection_status(True)` then
`finished(emails)`; exhaustion emits `connection_status(False)` then
`error("Connection failed after 3 attempts. Last error: ...")`. A failing
attempt sleeps 1 second iff it is not the last one. -/
def runSyncAux (out : Nat → AttemptResult) : Nat → Nat → Option String → List SyncEvent
  | 0, _, lastErr =>
    [SyncEvent.statusSig false,
     SyncEvent.errorSig ("Connection failed after 3 attempts. Last error: " ++ lastErr.getD "None")]
  | fuel + 1, attempt, _ =>
    let t := syncTimeout attempt
    SyncEvent.attempt t ::
      match out attempt with
      | AttemptResult.ok es => [SyncEvent.statusSig true, SyncEvent.finishedSig es]
      | r =>
        (if fuel = 0 then [] else [SyncEvent.sleep 1]) ++
          runSyncAux out fuel (attempt + 1) (some (failMsgS t r))

/-- `IMAPWorker.run` with `max_retries = 3`. -/
def runSync (out : Nat → AttemptResult) : List SyncEvent :=
  runSyncAux out 3 0 none

/-- The message `IMAPDeleteWorker.run` passes to `deleted.emit(True, ...)`,
depending on whether `_delete_email` found the message. -/
def deleteSuccessMsg (found : Bool) : String :=
  if found then "Email deleted successfully from server"
  else "Email not found on server (may already be deleted)"

/-- The retry loop of `IMAPDeleteWorker.run` (src/workers.py lines 94-134).
A completing attempt emits `deleted(True, ...)` whether or not the message
was found; exhaustion emits `error("Delete failed after 3 attempts. Last
error: ...")`. No `connection_status` signal exists on this worker. -/
def runDeleteAux (out : Nat → DelAttempt) : Nat → Nat → Option String → List SyncEvent
  | 0, _, lastErr =>
    [SyncEvent.errorSig ("Delete failed after 3 attempts. Last error: " ++ lastErr.getD "None")]
  | fuel + 1, attempt, _ =>
    let t := deleteTimeout attempt
    SyncEvent.attempt t ::
      match out attempt with
      | DelAttempt.done found => [SyncEvent.deletedSig true (deleteSuccessMsg found)]
      | r =>
        (if fuel = 0 then [] else [SyncEvent.sleep 1]) ++
          runDeleteAux out fuel (attempt + 1) (some (failMsgD t r))

/-- `IMAPDeleteWorker.run` with `max_retries = 3`. -/
def runDelete (out : Nat → DelAttempt) : List SyncEvent :=
  runDeleteAux out 3 0 none

/-- `IMAPDeleteWorker._delete_email` found-check (src/workers.py lines
158-162): the UID search found the message iff its line list is neither
empty nor `[b'']`. When false the coroutine returns `False` without storing
or expunging. -/
def uidSearchFound (searchLines : List String) : Bool :=
  !(searchLines.isEmpty || searchLines = [""])

/-- Does a worker trace contain any `connection_status` signal? -/
def hasStatusSig (events : List SyncEvent) : Bool :=
  events.any fun e => match e with | SyncEvent.statusSig _ => true | _ => false

/-- Connection parameters of an account (src/widgets.py `_perform_sync`):
Python's `.get("host", "")` makes an unconfigured host the empty string. -/
structure AccountCfg where
  useDefault : Bool
  host : String
  port : Nat
  useSsl : Bool

/-- The application-wide default IMAP settings. -/
structure DefaultImap where
  host : String
  port : Nat
  useSsl : Bool

/-- Result of `MailTab._perform_sync` (src/widgets.py lines 1005-1040):
either the immediate "No IMAP host configured" failure, or an `IMAPWorker`
started with the resolved connection parameters. -/
inductive SyncStart where
  | noHostError
  | workerStarted (email host : String) (port : Nat) (ssl : Bool) (folder : String)
deriving DecidableEq

/-- `MailTab._perform_sync`: resolve host/port/ssl from the default IMAP
settings or the account's own, fail with no worker when the host is empty,
otherwise start the sync worker. -/
def performSync (email : String) (acct : AccountCfg) (dflt : DefaultImap) (folder : String) :
    SyncStart :=
  let host := if acct.useDefault then dflt.host else acct.host
  let port := if acct.useDefault then dflt.port else acct.port
  let ssl := if acct.useDefault then dflt.useSsl else acct.useSsl
  if host = "" then SyncStart.noHostError
  else SyncStart.workerStarted email host port ssl folder

/-- Number of network workers a `_perform_sync` call starts. -/
def workersStarted : SyncStart → Nat
  | SyncStart.noHostError => 0
  | SyncStart.workerStarted .. => 1

/-! ## Lemmas about the merge loop -/

lemma mergeNew_eq_nil_of_mem (keys : List (String × String × String)) (l : List EmailRec)
    (h : ∀ x ∈ l, dedupKey x ∈ keys) : mergeNew keys l = [] := by
  induction l with
  | nil => rfl
  | cons e rest ih =>
    rw [mergeNew, if_pos (h e (by simp))]
    exact ih fun x hx => h x (by simp [hx])

lemma mem_keys_of_mem_batch (keys : List (String × String × String)) (l : List EmailRec) :
    ∀ x ∈ l, dedupKey x ∈ keys ++ (mergeNew keys l).map dedupKey := by
  induction l generalizing keys with
  | nil => simp
  | cons e rest ih =>
    intro x hx
    by_cases hk : dedupKey e ∈ keys
    · rw [mergeNew, if_pos hk]
      rcases List.mem_cons.mp hx with rfl | hx
      · exact List.mem_append_left _ hk
      · exact ih keys x hx
    · rw [mergeNew, if_neg hk]
      rcases List.mem_cons.mp hx with rfl | hx
      · exact List.mem_append_right _ (by simp)
      · have h2 := ih (dedupKey e :: keys) x hx
        rcases List.mem_append.mp h2 with h | h
        · rcases List.mem_cons.mp h with heq | h
          · exact List.mem_append_right _ (by rw [List.map_cons]; exact List.mem_cons.mpr (Or.inl heq))
          · exact List.mem_append_left _ h
        · exact List.mem_append_right _ (by rw [List.map_cons]; exact List.mem_cons.mpr (Or.inr h))

lemma onEmailsLoaded_eq (acct ts fname : String) (cache batch : List EmailRec) :
    onEmailsLoaded acct ts fname cache batch =
      (cache ++ onEmailsLoadedNew fname cache batch,
        if (onEmailsLoadedNew fname cache batch).isEmpty then none
        else some ⟨acct, ts, cache ++ onEmailsLoadedNew fname cache batch⟩) := rfl

lemma onEmailsLoadedNew_self (fname : String) (cache batch : List EmailRec) :
    onEmailsLoadedNew fname (cache ++ onEmailsLoadedNew fname cache batch) batch = [] := by
  unfold onEmailsLoadedNew
  apply mergeNew_eq_nil_of_mem
  intro x hx
  rw [List.map_append]
  exact mem_keys_of_mem_batch _ _ x hx

lemma mergeNew_fresh (keys : List (String × String × String)) (l : List EmailRec) :
    ∀ x ∈ mergeNew keys l, dedupKey x ∉ keys ∧ x ∈ l := by
  induction l generalizing keys with
  | nil => simp [mergeNew]
  | cons e rest ih =>
    intro x hx
    by_cases hk : dedupKey e ∈ keys
    · rw [mergeNew, if_pos hk] at hx
      obtain ⟨h1, h2⟩ := ih keys x hx
      exact ⟨h1, by simp [h2]⟩
    · rw [mergeNew, if_neg hk] at hx
      rcases List.mem_cons.mp hx with rfl | hx
      · exact ⟨hk, by simp⟩
      · obtain ⟨h1, h2⟩ := ih _ x hx
        exact ⟨fun hc => h1 (by simp [hc]), by simp [h2]⟩

/-! ## Lemmas about the lexicographic comparison and the date sort -/

lemma charListLt_asymm : ∀ a b : List Char, charListLt a b = true → charListLt b a = false := by
  intro a
  induction a with
  | nil =>
    intro b h
    cases b with
    | nil => simp [charListLt] at h
    | cons y ys => rfl
  | cons x xs ih =>
    intro b h
    cases b with
    | nil => simp [charListLt] at h
    | cons y ys =>
      rw [charListLt] at h ⊢
      by_cases h1 : x.toNat < y.toNat
      · rw [if_neg (by omega), if_pos h1]
      · by_cases h2 : y.toNat < x.toNat
        · rw [if_neg h1, if_pos h2] at h
          exact absurd h (by simp)
        · rw [if_neg h1, if_neg h2] at h
          rw [if_neg h2, if_neg h1]
          exact ih ys h

lemma charListLt_le_trans : ∀ a b c : List Char,
    charListLt a b = false → charListLt b c = false → charListLt a c = false := by
  intro a
  induction a with
  | nil =>
    intro b c hab hbc
    cases b with
    | nil =>
      cases c with
      | nil => rfl
      | cons z zs => simp [charListLt] at hbc
    | cons y ys => simp [charListLt] at hab
  | cons x xs ih =>
    intro b c hab hbc
    cases b with
    | nil =>
      cases c with
      | nil => rfl
      | cons z zs => simp [charListLt] at hbc
    | cons y ys =>
      cases c with
      | nil => rfl
      | cons z zs =>
        rw [charListLt] at hab hbc ⊢
        by_cases h1 : x.toNat < y.toNat
        · rw [if_pos h1] at hab
          exact absurd hab (by simp)
        · by_cases h2 : y.toNat < z.toNat
          · rw [if_pos h2] at hbc
            exact absurd hbc (by simp)
          · by_cases h3 : x.toNat < z.toNat
            · omega
            · rw [if_neg h3]
              by_cases h4 : z.toNat < x.toNat
              · rw [if_pos h4]
              · rw [if_neg h4]
                rw [if_neg h1, if_neg (show ¬ y.toNat < x.toNat by omega)] at hab
                rw [if_neg h2, if_neg (show ¬ z.toNat < y.toNat by omega)] at hbc
                exact ih ys zs hab hbc

/-- Non-ascending date order: `a`'s display date is not below `b`'s
(Python string comparison). -/
def dateGe (a b : EmailRec) : Prop := strLtB a.date b.date = false

lemma mem_insertByDateDesc (x : EmailRec) (l : List EmailRec) (a : EmailRec) :
    a ∈ insertByDateDesc x l ↔ a = x ∨ a ∈ l := by
  induction l with
  | nil => simp [insertByDateDesc]
  | cons y ys ih =>
    rw [insertByDateDesc]
    by_cases hc : strLtB x.date y.date = true
    · simp only [hc, if_true, List.mem_cons, ih]
      tauto
    · rw [Bool.not_eq_true] at hc
      simp only [hc, Bool.false_eq_true, if_false, List.mem_cons]

lemma pairwise_insertByDateDesc (x : EmailRec) (l : List EmailRec)
    (h : List.Pairwise dateGe l) : List.Pairwise dateGe (insertByDateDesc x l) := by
  induction l with
  | nil => simp [insertByDateDesc, List.pairwise_cons]
  | cons y ys ih =>
    rw [insertByDateDesc]
    obtain ⟨hy, hys⟩ := List.pairwise_cons.mp h
    by_cases hc : strLtB x.date y.date = true
    · simp only [hc, if_true]
      refine List.pairwise_cons.mpr ⟨?_, ih hys⟩
      intro z hz
      rcases (mem_insertByDateDesc x ys z).mp hz with rfl | hz
      · exact charListLt_asymm _ _ hc
      · exact hy z hz
    · rw [Bool.not_eq_true] at hc
      simp only [hc, Bool.false_eq_true, if_false]
      refine List.pairwise_cons.mpr ⟨?_, h⟩
      intro z hz
      rcases List.mem_cons.mp hz with rfl | hz
      · exact hc
      · exact charListLt_le_trans _ _ _ hc (hy z hz)

lemma mem_sortByDateDesc (l : List EmailRec) (a : EmailRec) :
    a ∈ sortByDateDesc l ↔ a ∈ l := by
  induction l with
  | nil => simp [sortByDateDesc]
  | cons y ys ih =>
    show a ∈ insertByDateDesc y (sortByDateDesc ys) ↔ _
    rw [mem_insertByDateDesc, ih, List.mem_cons]

lemma pairwise_sortByDateDesc (l : List EmailRec) :
    List.Pairwise dateGe (sortByDateDesc l) := by
  induction l with
  | nil => exact List.Pairwise.nil
  | cons y ys ih => exact pairwise_insertByDateDesc y (sortByDateDesc ys) ih

lemma flatMap_congr_of_mem {α β : Type} (l : List α) (f g : α → List β)
    (h : ∀ a ∈ l, f a = g a) : l.flatMap f = l.flatMap g := by
  induction l with
  | nil => rfl
  | cons x xs ih =>
    rw [List.flatMap_cons, List.flatMap_cons, h x (by simp), ih fun a ha => h a (by simp [ha])]

/-! ## Lemmas about the folder name resolver -/

lemma bucketPassAux_mem (names : List String) :
    ∀ (buckets : List (List String)) (acc : List String),
      ∀ x ∈ bucketPassAux names buckets acc,
        x ∈ acc ∨ ∃ vars ∈ buckets, vars.contains x = true := by
  intro buckets
  induction buckets with
  | nil => intro acc x hx; exact Or.inl hx
  | cons vars rest ih =>
    intro acc x hx
    rw [bucketPassAux] at hx
    cases hfind : names.find?
        (fun f => vars.contains f && !excludedFolders.contains f && !acc.contains f) with
    | none =>
      rw [hfind] at hx
      rcases ih acc x hx with hacc | ⟨vars', hv, hc⟩
      · exact Or.inl hacc
      · exact Or.inr ⟨vars', by simp [hv], hc⟩
    | some f =>
      rw [hfind] at hx
      rcases ih (acc ++ [f]) x hx with hacc | ⟨vars', hv, hc⟩
      · rcases List.mem_append.mp hacc with h | h
        · exact Or.inl h
        · have hf := List.find?_some hfind
          have hx_eq : x = f := by simpa using h
          subst hx_eq
          refine Or.inr ⟨vars, by simp, ?_⟩
          exact (Bool.and_eq_true .. |>.mp (Bool.and_eq_true .. |>.mp hf).1).1
      · exact Or.inr ⟨vars', by simp [hv], hc⟩

lemma bucketPassAux_head (names : List String) :
    ∀ (buckets : List (List String)) (acc : List String), acc ≠ [] →
      (bucketPassAux names buckets acc).head? = acc.head? := by
  intro buckets
  induction buckets with
  | nil => intro acc _; rfl
  | cons vars rest ih =>
    intro acc hacc
    rw [bucketPassAux]
    cases hfind : names.find?
        (fun f => vars.contains f && !excludedFolders.contains f && !acc.contains f) with
    | none => exact ih acc hacc
    | some f =>
      rw [ih (acc ++ [f]) (by simp)]
      cases acc with
      | nil => exact absurd rfl hacc
      | cons a as => rfl

lemma leftoverPass_mem (names : List String) :
    ∀ (acc : List String), ∀ x ∈ leftoverPass names acc,
      x ∈ acc ∨ (excludedFolders.any fun ex => strContains x ex) = false := by
  induction names with
  | nil => intro acc x hx; exact Or.inl hx
  | cons n ns ih =>
    intro acc x hx
    rw [leftoverPass, List.foldl_cons] at hx
    by_cases hc : (!acc.contains n && !excludedFolders.contains n &&
        !(excludedFolders.any fun ex => strContains n ex)) = true
    · rw [if_pos hc] at hx
      rcases ih (acc ++ [n]) x hx with hacc | hsafe
      · rcases List.mem_append.mp hacc with h | h
        · exact Or.inl h
        · have hx_eq : x = n := by simpa using h
          subst hx_eq
          exact Or.inr (by
            have := (Bool.and_eq_true .. |>.mp hc).2
            simpa using this)
      · exact Or.inr hsafe
    · rw [if_neg hc] at hx
      exact ih acc x hx

lemma leftoverPass_head (names : List String) :
    ∀ (acc : List String), acc ≠ [] →
      (leftoverPass names acc).head? = acc.head? := by
  induction names with
  | nil => intro acc _; rfl
  | cons n ns ih =>
    intro acc hacc
    rw [leftoverPass, List.foldl_cons]
    by_cases hc : (!acc.contains n && !excludedFolders.contains n &&
        !(excludedFolders.any fun ex => strContains n ex)) = true
    · have ih' := ih (acc ++ [n]) (by simp)
      rw [leftoverPass] at ih'
      rw [if_pos hc, ih']
      cases acc with
      | nil => exact absurd rfl hacc
      | cons a as => rfl
    · have ih' := ih acc hacc
      rw [leftoverPass] at ih'
      rw [if_neg hc]
      exact ih'

lemma bucket_names_not_excluded :
    ∀ vars ∈ folderBuckets, ∀ x ∈ vars, ∀ ex ∈ excludedFolders,
      strContains x ex = false := by decide

lemma find?_congrFn {α : Type} (l : List α) (p q : α → Bool) (h : ∀ a, p a = q a) :
    l.find? p = l.find? q := by
  induction l with
  | nil => rfl
  | cons a as ih =>
    rw [List.find?_cons, List.find?_cons, h a]
    cases q a <;> simp [ih]

/-! ## Claim theorems: deletion, reconciliation, sync start -/

/-- C2: on a confirmed server deletion the handler discards the entire
in-memory record list for the account (rather than patching it), writes the
cache file as a full save of the now-empty list, and triggers exactly one
resync of the current folder before completing. -/
theorem delete_clears_cache_and_resyncs_once (st : TabState) (acct ts folder : String) :
    onEmailDeletedFromServer true st acct ts folder =
      (⟨[], [], 0, none⟩, [TabAction.saveCache ⟨acct, ts, []⟩, TabAction.resync folder]) ∧
    (onEmailDeletedFromServer true st acct ts folder).1.allEmails = [] ∧
    countResyncs (onEmailDeletedFromServer true st acct ts folder).2 = 1 := by
  refine ⟨rfl, rfl, rfl⟩

/-- C10: the deletion handler leaves the per-account cache file on disk,
overwritten by a full save whose record list is empty and whose timestamp is
the fresh one; it issues no file removal. Only the explicit cache-clear
handler unlinks the cache file. -/
theorem delete_overwrites_cache_file_never_unlinks (st : TabState)
    (acct ts folder : String) (disk : Option CacheFile) :
    applyTabActions disk (onEmailDeletedFromServer true st acct ts folder).2 =
      some ⟨acct, ts, []⟩ ∧
    countClearCacheFile (onEmailDeletedFromServer true st acct ts folder).2 = 0 ∧
    (∀ disk2 : Option CacheFile, ∀ st2 : TabState,
      applyTabActions disk2 (clearCachedEmails st2).2 = none) := by
  exact ⟨rfl, rfl, fun _ _ => rfl⟩

/-- C9: when neither the account nor the default settings carry an IMAP
host, `_perform_sync` fails with the "no host configured" outcome and starts
zero network workers. -/
theorem no_host_sync_fails_without_network (email : String) (acct : AccountCfg)
    (dflt : DefaultImap) (folder : String) (hacct : acct.host = "")
    (hdflt : dflt.host = "") :
    performSync email acct dflt folder = SyncStart.noHostError ∧
    workersStarted (performSync email acct dflt folder) = 0 := by
  unfold performSync
  cases h : acct.useDefault <;> simp [hacct, hdflt, workersStarted]

/-- C9 witness: a concrete account with no host anywhere fails immediately
with zero workers. -/
theorem no_host_sync_fails_without_network_witness :
    performSync "user@example.com" ⟨true, "", 993, true⟩ ⟨"", 993, true⟩ "INBOX" =
      SyncStart.noHostError ∧
    workersStarted (performSync "user@example.com" ⟨true, "", 993, true⟩ ⟨"", 993, true⟩ "INBOX") = 0 :=
  no_host_sync_fails_without_network "user@example.com" ⟨true, "", 993, true⟩ ⟨"", 993, true⟩
    "INBOX" rfl rfl

/-- C4: reconciliation is idempotent — merging the same batch into the cache
a second time adds no record and writes nothing; in general the merge writes
the cache file iff it added at least one record, and any write carries the
complete updated record list together with the fresh timestamp. -/
theorem reconcile_idempotent_and_write_iff_new (acct ts ts2 fname : String)
    (cache batch : List EmailRec) :
    onEmailsLoaded acct ts2 fname (onEmailsLoaded acct ts fname cache batch).1 batch =
      ((onEmailsLoaded acct ts fname cache batch).1, none) ∧
    ((onEmailsLoaded acct ts fname cache batch).2 = none ↔
      (onEmailsLoaded acct ts fname cache batch).1 = cache) ∧
    (∀ f, (onEmailsLoaded acct ts fname cache batch).2 = some f →
      f = ⟨acct, ts, (onEmailsLoaded acct ts fname cache batch).1⟩) := by
  refine ⟨?_, ?_, ?_⟩
  · rw [onEmailsLoaded_eq acct ts fname cache batch]
    rw [show ((cache ++ onEmailsLoadedNew fname cache batch, _) :
        List EmailRec × Option CacheFile).1 = cache ++ onEmailsLoadedNew fname cache batch from rfl]
    rw [onEmailsLoaded_eq acct ts2 fname _ batch, onEmailsLoadedNew_self]
    simp
  · rw [onEmailsLoaded_eq acct ts fname cache batch]
    cases onEmailsLoadedNew fname cache batch <;> simp
  · rw [onEmailsLoaded_eq acct ts fname cache batch]
    cases onEmailsLoadedNew fname cache batch <;> simp

/-- C4 witness: with an empty cache and a one-record batch, the first merge
writes the tagged record list and the immediate re-merge adds nothing and
writes nothing. -/
theorem reconcile_idempotent_and_write_iff_new_witness :
    onEmailsLoaded "a" "t2" "F"
      (onEmailsLoaded "a" "t1" "F" [] [⟨"1", "x", "A", "d", "b", "", none⟩]).1
      [⟨"1", "x", "A", "d", "b", "", none⟩] =
      ((onEmailsLoaded "a" "t1" "F" [] [⟨"1", "x", "A", "d", "b", "", none⟩]).1, none) ∧
    (⟨"a", "t1", [⟨"1", "x", "A", "d", "b", "", some "F"⟩]⟩ : CacheFile) =
      ⟨"a", "t1", (onEmailsLoaded "a" "t1" "F" [] [⟨"1", "x", "A", "d", "b", "", none⟩]).1⟩ := by
  refine ⟨(reconcile_idempotent_and_write_iff_new "a" "t1" "t2" "F" []
    [⟨"1", "x", "A", "d", "b", "", none⟩]).1, ?_⟩
  exact (reconcile_idempotent_and_write_iff_new "a" "t1" "t2" "F" []
    [⟨"1", "x", "A", "d", "b", "", none⟩]).2.2 _ (by decide)

/-- C1: evaluating the fetcher's ID bounding at a folder with IDs 1..30.
`sorted(ids, reverse=True)[-25:]` keeps the LAST 25 entries of the
descending list — the 25 smallest (oldest) IDs 25..1 — whereas the claimed
behavior ("the 25 most recent IDs, descending") is 30..6. The fetch loop
then fetches exactly those oldest IDs in descending order. -/
theorem fetcher_cap_processes_oldest_ids :
    selectProcessedIds (List.range' 1 30) =
      [25, 24, 23, 22, 21, 20, 19, 18, 17, 16, 15, 14, 13, 12, 11,
       10, 9, 8, 7, 6, 5, 4, 3, 2, 1] ∧
    specMostRecentIds (List.range' 1 30) =
      [30, 29, 28, 27, 26, 25, 24, 23, 22, 21, 20, 19, 18, 17, 16,
       15, 14, 13, 12, 11, 10, 9, 8, 7, 6] ∧
    decide (selectProcessedIds (List.range' 1 30) = specMostRecentIds (List.range' 1 30)) = false ∧
    fetchFolderEmails (List.range' 1 30)
        (fun i => some ⟨Nat.repr i, "s", "sub", "d", "", "", none⟩) =
      (selectProcessedIds (List.range' 1 30)).map
        (fun i => ⟨Nat.repr i, "s", "sub", "d", "", "", none⟩) := by
  decide

/-- A folder listing of three plain folders, used to exercise the
all-folders pipeline. -/
def c6Lines : List String :=
  ["x \"/\" \"FolderA\"", "x \"/\" \"FolderB\"", "x \"/\" \"FolderC\""]

/-- An ID-discovery environment: every folder reports IDs 1..25. -/
def c6FolderIds : String → Option (List Nat) := fun _ => some (List.range' 1 25)

/-- A fetch environment: every ID yields a record named after it. -/
def c6Fetch : String → Nat → Option EmailRec :=
  fun fn i => some ⟨Nat.repr i, fn, "s", "", "", "", none⟩

/-- Same ID discovery, differing only on a folder outside the listing. -/
def c6FolderIdsB : String → Option (List Nat) :=
  fun fn => if fn = "FolderZ" then none else c6FolderIds fn

/-- Same fetch environment, differing only on a folder outside the listing. -/
def c6FetchB : String → Nat → Option EmailRec :=
  fun fn i => if fn = "FolderZ" then none else c6Fetch fn i

/-- C6 counterexample: with three folders of 25 messages each, the combined
result of the all-folders sync holds 50 records, not the 75 that the claimed
cap of 200 would keep — the source caps the combined list at 50. -/
theorem all_folders_cap_fifty_cex :
    (fetchAllFolders c6Lines c6FolderIds c6Fetch).length = 50 ∧
    (specFetchAllFoldersCap200 c6Lines c6FolderIds c6Fetch).length = 75 ∧
    decide (fetchAllFolders c6Lines c6FolderIds c6Fetch =
      specFetchAllFoldersCap200 c6Lines c6FolderIds c6Fetch) = false := by
  decide

/-- C6 amended: the all-folders sync caps the sync to the first 5 discovered
folders (folders beyond them are never consulted), tags every record with
its source folder, sorts the concatenation by display date descending, and
caps the combined result to 50 records (not 200). -/
theorem all_folders_pipeline_amended (lines : List String)
    (folderIds folderIds2 : String → Option (List Nat))
    (fetch fetch2 : String → Nat → Option EmailRec) :
    (fetchAllFolders lines folderIds fetch).length ≤ 50 ∧
    List.Pairwise dateGe (fetchAllFolders lines folderIds fetch) ∧
    (∀ e ∈ fetchAllFolders lines folderIds fetch,
      ∃ fn ∈ (workerFolderNames lines).take 5, e.folder = some fn) ∧
    ((∀ fn ∈ (workerFolderNames lines).take 5,
        folderIds fn = folderIds2 fn ∧ fetch fn = fetch2 fn) →
      fetchAllFolders lines folderIds fetch = fetchAllFolders lines folderIds2 fetch2) := by
  refine ⟨?_, ?_, ?_, ?_⟩
  · exact List.length_take_le _ _
  · exact List.Pairwise.sublist (List.take_sublist _ _) (pairwise_sortByDateDesc _)
  · intro e he
    have h1 : e ∈ sortByDateDesc ((workerFolderNames lines).take 5 |>.flatMap fun fn =>
        match folderIds fn with
        | none => []
        | some ids => (fetchFolderEmails ids (fetch fn)).map fun r => { r with folder := some fn }) :=
      List.mem_of_mem_take he
    rw [mem_sortByDateDesc] at h1
    obtain ⟨fn, hfn, hin⟩ := List.mem_flatMap.mp h1
    refine ⟨fn, hfn, ?_⟩
    cases h : folderIds fn with
    | none => rw [h] at hin; exact absurd hin (by simp)
    | some ids =>
      rw [h] at hin
      obtain ⟨r, _, hr⟩ := List.mem_map.mp hin
      rw [← hr]
  · intro hag
    have h := flatMap_congr_of_mem ((workerFolderNames lines).take 5)
      (fun fn => match folderIds fn with
        | none => []
        | some ids => (fetchFolderEmails ids (fetch fn)).map fun r => { r with folder := some fn })
      (fun fn => match folderIds2 fn with
        | none => []
        | some ids => (fetchFolderEmails ids (fetch2 fn)).map fun r => { r with folder := some fn })
      (fun fn hfn => by
        obtain ⟨h1, h2⟩ := hag fn hfn
        dsimp only
        rw [h1, h2])
    simp only [fetchAllFolders]
    rw [h]

/-- C6 witness: the pipeline bounds and the only-first-five-folders
dependence, instantiated on the three-folder listing. -/
theorem all_folders_pipeline_amended_witness :
    (fetchAllFolders c6Lines c6FolderIds c6Fetch).length ≤ 50 ∧
    fetchAllFolders c6Lines c6FolderIds c6Fetch =
      fetchAllFolders c6Lines c6FolderIdsB c6FetchB := by
  refine ⟨(all_folders_pipeline_amended c6Lines c6FolderIds c6FolderIdsB c6Fetch c6FetchB).1, ?_⟩
  apply (all_folders_pipeline_amended c6Lines c6FolderIds c6FolderIdsB c6Fetch c6FetchB).2.2.2
  intro fn hfn
  rw [show (workerFolderNames c6Lines).take 5 = ["FolderA", "FolderB", "FolderC"] from by decide] at hfn
  fin_cases hfn
  · exact ⟨rfl, funext fun i => by rw [show c6FetchB "FolderA" i = c6Fetch "FolderA" i from rfl]⟩
  · exact ⟨rfl, funext fun i => by rw [show c6FetchB "FolderB" i = c6Fetch "FolderB" i from rfl]⟩
  · exact ⟨rfl, funext fun i => by rw [show c6FetchB "FolderC" i = c6Fetch "FolderC" i from rfl]⟩

/-- C7 counterexample: a listing whose parsed names are `Inbox` then
`INBOX`. The INBOX bucket is filled by `Inbox` (the first variant found), so
the literal name `INBOX`, although present among the parsed names, resolves
to the second position, not the canonical first one. -/
theorem resolver_inbox_not_first_cex :
    parseFolderNames ["(\\HasNoChildren) \"/\" \"Inbox\"", "(\\HasNoChildren) \"/\" \"INBOX\""] =
      ["Inbox", "INBOX"] ∧
    "INBOX" ∈ parseFolderNames
      ["(\\HasNoChildren) \"/\" \"Inbox\"", "(\\HasNoChildren) \"/\" \"INBOX\""] ∧
    fetchFolders ["(\\HasNoChildren) \"/\" \"Inbox\"", "(\\HasNoChildren) \"/\" \"INBOX\""] =
      ["Inbox", "INBOX"] ∧
    decide ((fetchFolders
        ["(\\HasNoChildren) \"/\" \"Inbox\"", "(\\HasNoChildren) \"/\" \"INBOX\""]).head? =
      some "INBOX") = false := by
  decide

/-- C7 amended: for all folder-listing inputs, the resolved ordering never
includes a name equal to or containing an exclusion substring; and whenever
INBOX appears among the parsed names, the resolved ordering starts with the
first INBOX-bucket variant (`INBOX` or `Inbox`) occurring among the parsed
names — INBOX itself is first unless another variant precedes it. -/
theorem resolver_exclusion_and_inbox_bucket (lines : List String) :
    (∀ f ∈ fetchFolders lines, ∀ ex ∈ excludedFolders, strContains f ex = false) ∧
    ("INBOX" ∈ parseFolderNames lines →
      ∃ v, (parseFolderNames lines).find? (fun f => ["INBOX", "Inbox"].contains f) = some v ∧
        v ∈ ["INBOX", "Inbox"] ∧ (fetchFolders lines).head? = some v) := by
  constructor
  · intro f hf ex hex
    have hf' : f ∈ leftoverPass (parseFolderNames lines)
        (bucketPassAux (parseFolderNames lines) folderBuckets []) := hf
    rcases leftoverPass_mem _ _ f hf' with hacc | hsafe
    · rcases bucketPassAux_mem _ _ _ f hacc with hnil | ⟨vars, hv, hc⟩
      · exact absurd hnil (List.not_mem_nil f)
      · have hfv : f ∈ vars := List.elem_iff.mp hc
        exact bucket_names_not_excluded vars hv f hfv ex hex
    · have h := List.any_eq_false.mp hsafe ex hex
      exact Bool.eq_false_iff.mpr h
  · intro hINBOX
    have hpt : ∀ a : String,
        (["INBOX", "Inbox"].contains a && !excludedFolders.contains a &&
          !(([] : List String).contains a)) = ["INBOX", "Inbox"].contains a := by
      intro a
      by_cases ha : ["INBOX", "Inbox"].contains a = true
      · have hmem : a ∈ ["INBOX", "Inbox"] := List.elem_iff.mp ha
        rcases (by simpa using hmem : a = "INBOX" ∨ a = "Inbox") with rfl | rfl <;> decide
      · rw [Bool.eq_false_iff.mpr ha]
        simp
    have hfindsome : ((parseFolderNames lines).find?
        (fun f => ["INBOX", "Inbox"].contains f)).isSome := by
      rw [List.find?_isSome]
      exact ⟨"INBOX", hINBOX, by decide⟩
    obtain ⟨v, hv⟩ := Option.isSome_iff_exists.mp hfindsome
    have hqv : (["INBOX", "Inbox"].contains v) = true := List.find?_some hv
    refine ⟨v, hv, List.elem_iff.mp hqv, ?_⟩
    have hsplit : bucketPassAux (parseFolderNames lines) folderBuckets [] =
        bucketPassAux (parseFolderNames lines) folderBuckets.tail [v] := by
      rw [show folderBuckets = ["INBOX", "Inbox"] :: folderBuckets.tail from rfl, bucketPassAux]
      rw [find?_congrFn _ _ _ hpt, hv]
      simp
    have hbhead : (bucketPassAux (parseFolderNames lines) folderBuckets []).head? = some v := by
      rw [hsplit, bucketPassAux_head _ _ [v] (by simp)]
      rfl
    have hbne : bucketPassAux (parseFolderNames lines) folderBuckets [] ≠ [] := by
      intro heq
      rw [heq] at hbhead
      exact absurd hbhead (by simp)
    show (leftoverPass (parseFolderNames lines)
      (bucketPassAux (parseFolderNames lines) folderBuckets [])).head? = some v
    rw [leftoverPass_head _ _ hbne]
    exact hbhead

/-- A three-folder listing (spec scenario A) whose parsed names include the
literal INBOX. -/
def c7Lines : List String :=
  ["(\\HasNoChildren) \"/\" \"INBOX\"",
   "(\\HasNoChildren) \"/\" \"Sent Items\"",
   "(\\HasNoChildren) \"/\" \"Archive\""]

/-- C7 witness: on scenario A's listing the resolver puts INBOX first. -/
theorem resolver_exclusion_and_inbox_bucket_witness :
    (fetchFolders c7Lines).head? = some "INBOX" := by
  obtain ⟨v, h1, _, h3⟩ := (resolver_exclusion_and_inbox_bucket c7Lines).2 (by decide)
  rw [show (parseFolderNames c7Lines).find? (fun f => ["INBOX", "Inbox"].contains f) =
    some "INBOX" from by decide] at h1
  injection h1 with h
  rw [h]
  exact h3

lemma runDeleteAux_no_statusSig (out : Nat → DelAttempt) :
    ∀ (fuel attempt : Nat) (lastErr : Option String),
      hasStatusSig (runDeleteAux out fuel attempt lastErr) = false := by
  intro fuel
  induction fuel with
  | zero => intro attempt lastErr; rfl
  | succ f ih =>
    intro attempt lastErr
    rw [runDeleteAux]
    cases out attempt with
    | done found => rfl
    | timedOut => simp [hasStatusSig] at ih ⊢; exact ih _ _
    | failed m => simp [hasStatusSig] at ih ⊢; exact ih _ _

lemma not_mem_of_hasStatusSig_false (l : List SyncEvent) (h : hasStatusSig l = false) :
    ∀ b, SyncEvent.statusSig b ∉ l := by
  intro b hb
  have := List.any_eq_false.mp h _ hb
  simp at this

/-- C5 counterexample: a delete that succeeds on its first attempt emits
only the attempt and the `deleted` success signal — no connection-status
signal at all, where the claim requires status "connected" to be reported
for delete operations as well. -/
theorem delete_success_no_status_cex :
    runDelete (fun _ => DelAttempt.done true) =
      [SyncEvent.attempt 5,
       SyncEvent.deletedSig true "Email deleted successfully from server"] ∧
    hasStatusSig (runDelete (fun _ => DelAttempt.done true)) = false := by
  decide

/-- C5 amended: sync and delete are each retried up to 3 times with a
1-second pause between attempts and escalating timeouts — 15s/20s/25s for a
sync, 5s/7s/9s for a delete. A sync succeeding at attempt k reports
connection status "connected" then the fetched batch; a sync failing all 3
attempts reports status "disconnected" and an error carrying the last
failure's message. A delete succeeding at attempt k reports success through
the `deleted` signal and a delete failing all 3 attempts reports an error
carrying the last failure's message — in both cases without any
connection-status signal, which the delete worker never emits. -/
theorem retry_policy_amended (outS : Nat → AttemptResult) (outD : Nat → DelAttempt)
    (k : Nat) (es : List EmailRec) (found : Bool) (hk : k < 3) :
    ((∀ i, i < k → isFailureS (outS i) = true) → outS k = AttemptResult.ok es →
      runSync outS =
        (List.range k).flatMap (fun i => [SyncEvent.attempt (syncTimeout i), SyncEvent.sleep 1]) ++
          [SyncEvent.attempt (syncTimeout k), SyncEvent.statusSig true, SyncEvent.finishedSig es]) ∧
    ((∀ i, i < 3 → isFailureS (outS i) = true) →
      runSync outS =
        [SyncEvent.attempt 15, SyncEvent.sleep 1, SyncEvent.attempt 20, SyncEvent.sleep 1,
         SyncEvent.attempt 25, SyncEvent.statusSig false,
         SyncEvent.errorSig
           ("Connection failed after 3 attempts. Last error: " ++ failMsgS 25 (outS 2))]) ∧
    ((∀ i, i < k → isFailureD (outD i) = true) → outD k = DelAttempt.done found →
      runDelete outD =
        (List.range k).flatMap (fun i => [SyncEvent.attempt (deleteTimeout i), SyncEvent.sleep 1]) ++
          [SyncEvent.attempt (deleteTimeout k),
           SyncEvent.deletedSig true (deleteSuccessMsg found)]) ∧
    ((∀ i, i < 3 → isFailureD (outD i) = true) →
      runDelete outD =
        [SyncEvent.attempt 5, SyncEvent.sleep 1, SyncEvent.attempt 7, SyncEvent.sleep 1,
         SyncEvent.attempt 9,
         SyncEvent.errorSig
           ("Delete failed after 3 attempts. Last error: " ++ failMsgD 9 (outD 2))]) ∧
    (∀ b, SyncEvent.statusSig b ∉ runDelete outD) := by
  refine ⟨?_, ?_, ?_, ?_, ?_⟩
  · intro hfail hok
    interval_cases k
    · simp [runSync, runSyncAux, hok, syncTimeout]
    · have h0 := hfail 0 (by omega)
      cases h0' : outS 0 with
      | ok es2 => rw [h0'] at h0; simp [isFailureS] at h0
      | timedOut =>
        simp [runSync, runSyncAux, h0', hok, syncTimeout, List.range_succ]
      | failed m =>
        simp [runSync, runSyncAux, h0', hok, syncTimeout, List.range_succ]
    · have h0 := hfail 0 (by omega)
      have h1 := hfail 1 (by omega)
      cases h0' : outS 0 with
      | ok es2 => rw [h0'] at h0; simp [isFailureS] at h0
      | timedOut =>
        cases h1' : outS 1 with
        | ok es2 => rw [h1'] at h1; simp [isFailureS] at h1
        | timedOut =>
          simp [runSync, runSyncAux, h0', h1', hok, syncTimeout, List.range_succ]
        | failed m =>
          simp [runSync, runSyncAux, h0', h1', hok, syncTimeout, List.range_succ]
      | failed m =>
        cases h1' : outS 1 with
        | ok es2 => rw [h1'] at h1; simp [isFailureS] at h1
        | timedOut =>
          simp [runSync, runSyncAux, h0', h1', hok, syncTimeout, List.range_succ]
        | failed m2 =>
          simp [runSync, runSyncAux, h0', h1', hok, syncTimeout, List.range_succ]
  · intro hfail
    have h0 := hfail 0 (by omega)
    have h1 := hfail 1 (by omega)
    have h2 := hfail 2 (by omega)
    cases h0' : outS 0 with
    | ok es2 => rw [h0'] at h0; simp [isFailureS] at h0
    | timedOut =>
      cases h1' : outS 1 with
      | ok es2 => rw [h1'] at h1; simp [isFailureS] at h1
      | timedOut =>
        cases h2' : outS 2 with
        | ok es2 => rw [h2'] at h2; simp [isFailureS] at h2
        | timedOut => simp [runSync, runSyncAux, h0', h1', h2', syncTimeout, failMsgS]
        | failed m => simp [runSync, runSyncAux, h0', h1', h2', syncTimeout, failMsgS]
      | failed m =>
        cases h2' : outS 2 with
        | ok es2 => rw [h2'] at h2; simp [isFailureS] at h2
        | timedOut => simp [runSync, runSyncAux, h0', h1', h2', syncTimeout, failMsgS]
        | failed m2 => simp [runSync, runSyncAux, h0', h1', h2', syncTimeout, failMsgS]
    | failed m0 =>
      cases h1' : outS 1 with
      | ok es2 => rw [h1'] at h1; simp [isFailureS] at h1
      | timedOut =>
        cases h2' : outS 2 with
        | ok es2 => rw [h2'] at h2; simp [isFailureS] at h2
        | timedOut => simp [runSync, runSyncAux, h0', h1', h2', syncTimeout, failMsgS]
        | failed m => simp [runSync, runSyncAux, h0', h1', h2', syncTimeout, failMsgS]
      | failed m1 =>
        cases h2' : outS 2 with
        | ok es2 => rw [h2'] at h2; simp [isFailureS] at h2
        | timedOut => simp [runSync, runSyncAux, h0', h1', h2', syncTimeout, failMsgS]
        | failed m2 => simp [runSync, runSyncAux, h0', h1', h2', syncTimeout, failMsgS]
  · intro hfail hok
    interval_cases k
    · simp [runDelete, runDeleteAux, hok, deleteTimeout]
    · have h0 := hfail 0 (by omega)
      cases h0' : outD 0 with
      | done f2 => rw [h0'] at h0; simp [isFailureD] at h0
      | timedOut =>
        simp [runDelete, runDeleteAux, h0', hok, deleteTimeout, List.range_succ]
      | failed m =>
        simp [runDelete, runDeleteAux, h0', hok, deleteTimeout, List.range_succ]
    · have h0 := hfail 0 (by omega)
      have h1 := hfail 1 (by omega)
      cases h0' : outD 0 with
      | done f2 => rw [h0'] at h0; simp [isFailureD] at h0
      | timedOut =>
        cases h1' : outD 1 with
        | done f2 => rw [h1'] at h1; simp [isFailureD] at h1
        | timedOut =>
          simp [runDelete, runDeleteAux, h0', h1', hok, deleteTimeout, List.range_succ]
        | failed m =>
          simp [runDelete, runDeleteAux, h0', h1', hok, deleteTimeout, List.range_succ]
      | failed m =>
        cases h1' : outD 1 with
        | done f2 => rw [h1'] at h1; simp [isFailureD] at h1
        | timedOut =>
          simp [runDelete, runDeleteAux, h0', h1', hok, deleteTimeout, List.range_succ]
        | failed m2 =>
          simp [runDelete, runDeleteAux, h0', h1', hok, deleteTimeout, List.range_succ]
  · intro hfail
    have h0 := hfail 0 (by omega)
    have h1 := hfail 1 (by omega)
    have h2 := hfail 2 (by omega)
    cases h0' : outD 0 with
    | done f2 => rw [h0'] at h0; simp [isFailureD] at h0
    | timedOut =>
      cases h1' : outD 1 with
      | done f2 => rw [h1'] at h1; simp [isFailureD] at h1
      | timedOut =>
        cases h2' : outD 2 with
        | done f2 => rw [h2'] at h2; simp [isFailureD] at h2
        | timedOut => simp [runDelete, runDeleteAux, h0', h1', h2', deleteTimeout, failMsgD]
        | failed m => simp [runDelete, runDeleteAux, h0', h1', h2', deleteTimeout, failMsgD]
      | failed m =>
        cases h2' : outD 2 with
        | done f2 => rw [h2'] at h2; simp [isFailureD] at h2
        | timedOut => simp [runDelete, runDeleteAux, h0', h1', h2', deleteTimeout, failMsgD]
        | failed m2 => simp [runDelete, runDeleteAux, h0', h1', h2', deleteTimeout, failMsgD]
    | failed m0 =>
      cases h1' : outD 1 with
      | done f2 => rw [h1'] at h1; simp [isFailureD] at h1
      | timedOut =>
        cases h2' : outD 2 with
        | done f2 => rw [h2'] at h2; simp [isFailureD] at h2
        | timedOut => simp [runDelete, runDeleteAux, h0', h1', h2', deleteTimeout, failMsgD]
        | failed m => simp [runDelete, runDeleteAux, h0', h1', h2', deleteTimeout, failMsgD]
      | failed m1 =>
        cases h2' : outD 2 with
        | done f2 => rw [h2'] at h2; simp [isFailureD] at h2
        | timedOut => simp [runDelete, runDeleteAux, h0', h1', h2', deleteTimeout, failMsgD]
        | failed m2 => simp [runDelete, runDeleteAux, h0', h1', h2', deleteTimeout, failMsgD]
  · exact not_mem_of_hasStatusSig_false _ (runDeleteAux_no_statusSig outD 3 0 none)

/-- The failing-then-succeeding sync outcome used to witness the retry
policy: two raised exceptions, then a successful fetch. -/
def witnessOutS : Nat → AttemptResult :=
  fun i => if i = 0 then AttemptResult.failed "refused" else
    if i = 1 then AttemptResult.failed "reset" else AttemptResult.ok []

/-- The always-failing delete outcome used to witness the retry policy. -/
def witnessOutD : Nat → DelAttempt :=
  fun i => if i = 0 then DelAttempt.failed "d1" else
    if i = 1 then DelAttempt.failed "d2" else DelAttempt.failed "d3"

/-- C5 witness: a sync failing twice then succeeding walks timeouts
15/20/25 with 1-second pauses and ends connected; a delete failing all three
attempts walks 5/7/9 and surfaces the last error, with no status signal. -/
theorem retry_policy_amended_witness :
    runSync witnessOutS =
      [SyncEvent.attempt 15, SyncEvent.sleep 1, SyncEvent.attempt 20, SyncEvent.sleep 1,
       SyncEvent.attempt 25, SyncEvent.statusSig true, SyncEvent.finishedSig []] ∧
    runDelete witnessOutD =
      [SyncEvent.attempt 5, SyncEvent.sleep 1, SyncEvent.attempt 7, SyncEvent.sleep 1,
       SyncEvent.attempt 9,
       SyncEvent.errorSig "Delete failed after 3 attempts. Last error: d3"] ∧
    hasStatusSig (runDelete witnessOutD) = false := by
  have hdel : runDelete witnessOutD =
      [SyncEvent.attempt 5, SyncEvent.sleep 1, SyncEvent.attempt 7, SyncEvent.sleep 1,
       SyncEvent.attempt 9,
       SyncEvent.errorSig "Delete failed after 3 attempts. Last error: d3"] := by
    have h := (retry_policy_amended witnessOutS witnessOutD 2 [] true (by omega)).2.2.2.1
      (by intro i hi; interval_cases i <;> decide)
    simpa [failMsgD] using h
  refine ⟨?_, hdel, ?_⟩
  · have h := (retry_policy_amended witnessOutS witnessOutD 2 [] true (by omega)).1
      (by intro i hi; interval_cases i <;> decide) (by decide)
    simpa [syncTimeout, List.range_succ] using h
  · rw [hdel]
    decide

/-- C8: a delete attempt whose UID search comes back empty (the message is
already absent server-side) completes as a success carrying the not-found
message, and the run emits no error signal for it. -/
theorem delete_absent_is_success (outD : Nat → DelAttempt) (searchLines : List String)
    (k : Nat) (hk : k < 3) (hfail : ∀ i, i < k → isFailureD (outD i) = true)
    (hsearch : uidSearchFound searchLines = false)
    (hout : outD k = DelAttempt.done (uidSearchFound searchLines)) :
    runDelete outD =
      (List.range k).flatMap (fun i => [SyncEvent.attempt (deleteTimeout i), SyncEvent.sleep 1]) ++
        [SyncEvent.attempt (deleteTimeout k),
         SyncEvent.deletedSig true "Email not found on server (may already be deleted)"] ∧
    (∀ m, SyncEvent.errorSig m ∉ runDelete outD) := by
  rw [hsearch] at hout
  have htrace : runDelete outD =
      (List.range k).flatMap (fun i => [SyncEvent.attempt (deleteTimeout i), SyncEvent.sleep 1]) ++
        [SyncEvent.attempt (deleteTimeout k),
         SyncEvent.deletedSig true "Email not found on server (may already be deleted)"] := by
    interval_cases k
    · simp [runDelete, runDeleteAux, hout, deleteTimeout, deleteSuccessMsg]
    · have h0 := hfail 0 (by omega)
      cases h0' : outD 0 with
      | done f2 => rw [h0'] at h0; simp [isFailureD] at h0
      | timedOut =>
        simp [runDelete, runDeleteAux, h0', hout, deleteTimeout, deleteSuccessMsg, List.range_succ]
      | failed m =>
        simp [runDelete, runDeleteAux, h0', hout, deleteTimeout, deleteSuccessMsg, List.range_succ]
    · have h0 := hfail 0 (by omega)
      have h1 := hfail 1 (by omega)
      cases h0' : outD 0 with
      | done f2 => rw [h0'] at h0; simp [isFailureD] at h0
      | timedOut =>
        cases h1' : outD 1 with
        | done f2 => rw [h1'] at h1; simp [isFailureD] at h1
        | timedOut =>
          simp [runDelete, runDeleteAux, h0', h1', hout, deleteTimeout, deleteSuccessMsg,
            List.range_succ]
        | failed m =>
          simp [runDelete, runDeleteAux, h0', h1', hout, deleteTimeout, deleteSuccessMsg,
            List.range_succ]
      | failed m =>
        cases h1' : outD 1 with
        | done f2 => rw [h1'] at h1; simp [isFailureD] at h1
        | timedOut =>
          simp [runDelete, runDeleteAux, h0', h1', hout, deleteTimeout, deleteSuccessMsg,
            List.range_succ]
        | failed m2 =>
          simp [runDelete, runDeleteAux, h0', h1', hout, deleteTimeout, deleteSuccessMsg,
            List.range_succ]
  refine ⟨htrace, ?_⟩
  intro m hm
  rw [htrace] at hm
  rcases List.mem_append.mp hm with h | h
  · obtain ⟨i, _, hin⟩ := List.mem_flatMap.mp h
    simp at hin
  · simp at h

/-- C8 witness: a first-attempt delete whose UID search returned `[b'']`
completes as a not-found success. -/
theorem delete_absent_is_success_witness :
    runDelete (fun _ => DelAttempt.done false) =
      [SyncEvent.attempt 5,
       SyncEvent.deletedSig true "Email not found on server (may already be deleted)"] := by
  have h := delete_absent_is_success (fun _ => DelAttempt.done false) [""] 0 (by omega)
    (by intro i hi; omega) (by decide) (by decide)
  simpa [deleteTimeout] using h.1

/-- C3 counterexample: in the all-folders merge handler the deduplication
key is the id alone. With a cached record of id "1" and a fetched record
with the same id but a different subject — distinct (id, subject, from)
triples — the fetched record is dropped, while the claim requires it to be
appended. -/
theorem allfolders_merge_id_key_cex :
    decide (dedupKey ⟨"1", "x", "A", "d", "b1", "", some "Inbox"⟩ =
      dedupKey ⟨"1", "x", "B", "d", "b2", "", none⟩) = false ∧
    (onAllFoldersSynced "a" "t" [⟨"1", "x", "A", "d", "b1", "", some "Inbox"⟩]
      [⟨"1", "x", "B", "d", "b2", "", none⟩]).1 =
      [⟨"1", "x", "A", "d", "b1", "", some "Inbox"⟩] ∧
    decide ((⟨"1", "x", "B", "d", "b2", "", none⟩ : EmailRec) ∈
      (onAllFoldersSynced "a" "t" [⟨"1", "x", "A", "d", "b1", "", some "Inbox"⟩]
        [⟨"1", "x", "B", "d", "b2", "", none⟩]).1) = false := by
  decide

/-- C3 amended: the single-folder merge deduplicates by the
(id, subject, from) triple — a fetched record is appended only if no cached
record shares its triple, and of two batch records with an identical triple
only the first is retained — while the all-folders merge deduplicates by id
alone: a record is appended there only if no cached record shares its id. -/
theorem dedup_key_by_merge_path (fname : String) (cache batch : List EmailRec)
    (a b : EmailRec) :
    (∀ e ∈ onEmailsLoadedNew fname cache batch, ∀ c ∈ cache, dedupKey c ≠ dedupKey e) ∧
    (dedupKey a = dedupKey b → dedupKey a ∉ cache.map dedupKey →
      mergeNew (cache.map dedupKey) [a, b] = [a]) ∧
    (∀ e ∈ onAllFoldersSyncedNew cache batch, ∀ c ∈ cache, c.id ≠ e.id) := by
  refine ⟨?_, ?_, ?_⟩
  · intro e he c hc hkey
    have := (mergeNew_fresh (cache.map dedupKey) _ e he).1
    exact this (List.mem_map.mpr ⟨c, hc, hkey⟩)
  · intro hab hfresh
    rw [mergeNew, if_neg hfresh, mergeNew, if_pos (by simp [hab]), mergeNew]
  · intro e he c hc hid
    have hp := List.of_mem_filter he
    have hmem : e.id ∈ cache.map (·.id) := List.mem_map.mpr ⟨c, hc, hid⟩
    simp [hmem] at hp

/-- C3 witness: a cached record blocks a same-triple batch record in the
single-folder merge, and of two same-triple batch records only the first
survives. -/
theorem dedup_key_by_merge_path_witness :
    mergeNew (([] : List EmailRec).map dedupKey)
      [⟨"7", "x", "S", "d1", "body1", "", none⟩, ⟨"7", "x", "S", "d2", "body2", "", none⟩] =
      [⟨"7", "x", "S", "d1", "body1", "", none⟩] :=
  (dedup_key_by_merge_path "F" [] [] ⟨"7", "x", "S", "d1", "body1", "", none⟩
    ⟨"7", "x", "S", "d2", "body2", "", none⟩).2.1 (by decide) (by decide)

end Mailtime
